import Mathlib

/-!
A shallow embedding of the data-warehouse core of the `fight-club` backend
(`src/backend/src/data/warehouse.py` and its caller
`src/backend/src/api/routes/data.py`), together with theorems checking the
natural-language specification against it.

Modelling decisions:
* Timestamps (`datetime`) are modelled as `Nat` (e.g. encoded `YYYYMMDD`);
  only their ordering matters to the code under study.
* Price and volume fields are Python floats in the source; the logic under
  study only copies and compares them, so they are modelled as `Int`
  (exact values, same ordering structure).
* The SQL store is modelled as a list of rows in insertion order; the
  `ORDER BY timestamp` of the range query is modelled with `insertionSort`.
* Python's `sorted(xs, key=lambda x: x.timestamp)` is likewise modelled with
  `insertionSort` on the timestamp ordering.
* `async` I/O effects are modelled by explicit state passing: the provider's
  HTTP response is an input, the store is threaded through, and the number of
  provider calls is returned so that "never fetches" is a provable statement.
* Python exceptions become `Except`: each distinct `raise` site in the
  client/warehouse gets its own constructor of `WarehouseError`.
-/

namespace FightClub

/-- One parsed OHLCV bucket (`OHLCVData` rows as used by `warehouse.py`):
timestamp plus open/high/low/close/volume values. -/
structure OHLCVData where
  timestamp : Nat
  «open» : Int
  high : Int
  low : Int
  close : Int
  volume : Int
deriving DecidableEq, Repr

/-- One persisted row of the store (`OHLCVRecord`): the same fields keyed
additionally by symbol. -/
structure OHLCVRecord where
  symbol : String
  timestamp : Nat
  «open» : Int
  high : Int
  low : Int
  close : Int
  volume : Int
deriving DecidableEq, Repr

/-- One entry of the provider's `"Time Series (Daily)"` mapping, after the
string-level parsing attempts of `_parse_time_series`: each field is `none`
when the key was missing (`KeyError`) or its string failed to parse
(`ValueError` from `datetime.fromisoformat` / `float`), and `some v` when it
parsed to `v`. -/
structure RawEntry where
  timestamp : Option Nat
  «open» : Option Int
  high : Option Int
  low : Option Int
  close : Option Int
  volume : Option Int
deriving DecidableEq, Repr

/-- The decoded JSON body of one Alpha Vantage response, restricted to the
keys `fetch_daily` inspects: `"Error Message"`, `"Note"`, `"Information"` and
the `"Time Series (Daily)"` section (`[]` models both a missing and an empty
section, matching `data.get(..., {})` followed by `if not time_series`). -/
structure ProviderResponse where
  errorMessage : Option String
  note : Option String
  information : Option String
  timeSeries : List RawEntry
deriving DecidableEq, Repr

/-- The distinct failure exits of the client and warehouse, one constructor
per distinct `raise` site:
* `upstreamMessage`: `"Error Message"` present in the response;
* `rateLimited`: `"Note"` present (`"API rate limit exceeded"` message);
* `upstreamInfo`: `"Information"` present;
* `noData`: the response has no (or an empty) time-series section;
* `noDataForSymbol`: the warehouse's `"No data returned from Alpha Vantage"`
  raise when the parsed record list is empty. -/
inductive WarehouseError where
  | upstreamMessage
  | rateLimited
  | upstreamInfo
  | noData
  | noDataForSymbol
deriving DecidableEq, Repr

/-- Modelled from the spec: the Quote Record data class (`OHLCVData` in
`src/backend/src/models/data.py`) is not part of the sources under study,
only its constructor calls are.  Per the spec (section 3) its construction
validates `low <= open, close <= high`, `low <= high` and `volume >= 0`, and
a violating record is rejected (the raised validation error is a `ValueError`
caught by `_parse_time_series`, which skips the entry). -/
def OHLCVData.valid (d : OHLCVData) : Bool :=
  decide (d.low ≤ d.«open») && decide (d.«open» ≤ d.high) &&
  decide (d.low ≤ d.close) && decide (d.close ≤ d.high) &&
  decide (d.low ≤ d.high) && decide (0 ≤ d.volume)

/-- One iteration of the `for` loop of `_parse_time_series`: construct an
`OHLCVData` from the entry, yielding `none` when a field is missing or
malformed (`KeyError` / `ValueError`) or when the constructed record fails
the data-class validation (see `OHLCVData.valid`). -/
def parseEntry (entry : RawEntry) : Option OHLCVData :=
  match entry.timestamp, entry.«open», entry.high, entry.low, entry.close,
      entry.volume with
  | some t, some o, some h, some l, some c, some v =>
      let d : OHLCVData := ⟨t, o, h, l, c, v⟩
      if d.valid then some d else none
  | _, _, _, _, _, _ => none

/-- Ascending-timestamp ordering on parsed records, the key ordering of
`sorted(ohlcv_data, key=lambda x: x.timestamp)`. -/
def byTs (a b : OHLCVData) : Prop :=
  a.timestamp ≤ b.timestamp

instance : DecidableRel byTs := fun a b => Nat.decLe a.timestamp b.timestamp

instance : IsTotal OHLCVData byTs :=
  ⟨fun a b => Nat.le_total a.timestamp b.timestamp⟩

instance : IsTrans OHLCVData byTs :=
  ⟨fun _ _ _ h₁ h₂ => Nat.le_trans h₁ h₂⟩

/-- Ascending-timestamp ordering on stored rows, the ordering of the range
query's `ORDER BY timestamp`. -/
def byTsRec (a b : OHLCVRecord) : Prop :=
  a.timestamp ≤ b.timestamp

instance : DecidableRel byTsRec := fun a b => Nat.decLe a.timestamp b.timestamp

instance : IsTotal OHLCVRecord byTsRec :=
  ⟨fun a b => Nat.le_total a.timestamp b.timestamp⟩

instance : IsTrans OHLCVRecord byTsRec :=
  ⟨fun _ _ _ h₁ h₂ => Nat.le_trans h₁ h₂⟩

/-- `AlphaVantageClient._parse_time_series`: parse each entry, skipping the
ones that raise (`except (KeyError, ValueError): continue`), and return the
survivors sorted ascending by timestamp. -/
def parse_time_series (timeSeries : List RawEntry) : List OHLCVData :=
  List.insertionSort byTs (timeSeries.filterMap parseEntry)

/-- `AlphaVantageClient.fetch_daily`, applied to an already-received response
body: check the error/info keys in the source's order, reject an absent or
empty time-series section, and otherwise parse. -/
def fetch_daily (resp : ProviderResponse) : Except WarehouseError (List OHLCVData) :=
  if resp.errorMessage.isSome then .error .upstreamMessage
  else if resp.note.isSome then .error .rateLimited
  else if resp.information.isSome then .error .upstreamInfo
  else if resp.timeSeries.isEmpty then .error .noData
  else .ok (parse_time_series resp.timeSeries)

/-- The existence check of `save_ohlcv_data`: is there already a row with
this `(symbol, timestamp)` key? -/
def hasKey (store : List OHLCVRecord) (symbol : String) (ts : Nat) : Bool :=
  store.any fun r => r.symbol == symbol && r.timestamp == ts

/-- Building the `OHLCVRecord` row inserted by `save_ohlcv_data`. -/
def toRecord (symbol : String) (d : OHLCVData) : OHLCVRecord :=
  ⟨symbol, d.timestamp, d.«open», d.high, d.low, d.close, d.volume⟩

/-- `DataWarehouse.save_ohlcv_data`: for each record in order, insert it only
when no row with its `(symbol, timestamp)` key exists yet (the session's
autoflush makes rows added earlier in the same loop visible to the existence
check, which the fold over the growing store models). -/
def save_ohlcv_data (store : List OHLCVRecord) (symbol : String)
    (data : List OHLCVData) : List OHLCVRecord :=
  data.foldl
    (fun st d => if hasKey st symbol d.timestamp then st else st ++ [toRecord symbol d])
    store

/-- `DataWarehouse._get_cached_data`: rows with this symbol and
`start_date <= timestamp <= end_date`, ordered by timestamp. -/
def get_cached_data (store : List OHLCVRecord) (symbol : String)
    (start_date end_date : Nat) : List OHLCVRecord :=
  List.insertionSort byTsRec
    (store.filter fun r =>
      r.symbol == symbol && decide (start_date ≤ r.timestamp) &&
        decide (r.timestamp ≤ end_date))

/-- `DataWarehouse._records_to_dataframe`, per row: project a stored row to
its OHLCV fields. -/
def toData (r : OHLCVRecord) : OHLCVData :=
  ⟨r.timestamp, r.«open», r.high, r.low, r.close, r.volume⟩

/-- `datetime(2000, 1, 1)`, the default lower bound, with timestamps encoded
`YYYYMMDD`. -/
def datetime2000 : Nat := 20000101

/-- The observable outcome of one `get_ohlcv_data` call: the returned
dataframe rows (or the propagated exception), the store state after the
call, and how many provider requests were issued. -/
structure GetResult where
  result : Except WarehouseError (List OHLCVData)
  store : List OHLCVRecord
  providerCalls : Nat
deriving Repr

/-- `DataWarehouse.get_ohlcv_data`: default the missing bounds
(`datetime(2000,1,1)` / `datetime.now()`, the latter passed in as `now`),
query the cache, on a hit convert the cached rows, on a miss fetch from the
provider (propagating its errors), reject an empty parsed set, save, and
finally filter the dataframe to the requested range. -/
def get_ohlcv_data (store : List OHLCVRecord) (resp : ProviderResponse)
    (symbol : String) (start_date end_date : Option Nat) (now : Nat) :
    GetResult :=
  let start_dt := start_date.getD datetime2000
  let end_dt := end_date.getD now
  let cached_data := get_cached_data store symbol start_dt end_dt
  if cached_data.length > 0 then
    let df := cached_data.map toData
    let df := if df.length > 0 then
        df.filter fun d => decide (start_dt ≤ d.timestamp) && decide (d.timestamp ≤ end_dt)
      else df
    ⟨.ok df, store, 0⟩
  else
    match fetch_daily resp with
    | .error e => ⟨.error e, store, 1⟩
    | .ok ohlcv_data =>
      if ohlcv_data.isEmpty then ⟨.error .noDataForSymbol, store, 1⟩
      else
        let store₂ := save_ohlcv_data store symbol ohlcv_data
        let df := ohlcv_data
        let df := if df.length > 0 then
            df.filter fun d => decide (start_dt ≤ d.timestamp) && decide (d.timestamp ≤ end_dt)
          else df
        ⟨.ok df, store₂, 1⟩

/-- `refresh_data` (`src/backend/src/api/routes/data.py`), restricted to its
warehouse effects: always fetch, reject an empty parsed set (the 404 branch),
save, and report the pre-dedup record count together with the new store. -/
def refresh (store : List OHLCVRecord) (resp : ProviderResponse)
    (symbol : String) : Except WarehouseError (Nat × List OHLCVRecord) :=
  match fetch_daily resp with
  | .error e => .error e
  | .ok ohlcv_data =>
    if ohlcv_data.isEmpty then .error .noDataForSymbol
    else .ok (ohlcv_data.length, save_ohlcv_data store symbol ohlcv_data)

/-- The store invariant of spec section 3: `(symbol, timestamp)` is unique
across stored rows. -/
def noDupKeys (store : List OHLCVRecord) : Prop :=
  store.Pairwise fun a b => ¬(a.symbol = b.symbol ∧ a.timestamp = b.timestamp)

/-! ### Helper lemmas -/

theorem hasKey_iff {store : List OHLCVRecord} {sym : String} {ts : Nat} :
    hasKey store sym ts = true ↔ ∃ r ∈ store, r.symbol = sym ∧ r.timestamp = ts := by
  simp [hasKey, List.any_eq_true]

theorem save_cons (store : List OHLCVRecord) (sym : String) (d : OHLCVData)
    (rest : List OHLCVData) :
    save_ohlcv_data store sym (d :: rest) =
      save_ohlcv_data
        (if hasKey store sym d.timestamp then store else store ++ [toRecord sym d])
        sym rest := rfl

theorem mem_save_of_mem {r : OHLCVRecord} {store : List OHLCVRecord}
    (sym : String) (data : List OHLCVData) (h : r ∈ store) :
    r ∈ save_ohlcv_data store sym data := by
  induction data generalizing store with
  | nil => exact h
  | cons d rest ih =>
    rw [save_cons]
    apply ih
    split
    · exact h
    · exact List.mem_append_left _ h

theorem hasKey_save_of_hasKey {store : List OHLCVRecord} {sym : String} {ts : Nat}
    (data : List OHLCVData) (h : hasKey store sym ts = true) :
    hasKey (save_ohlcv_data store sym data) sym ts = true := by
  rcases hasKey_iff.mp h with ⟨r, hr, hprop⟩
  exact hasKey_iff.mpr ⟨r, mem_save_of_mem sym data hr, hprop⟩

theorem hasKey_save_of_mem {store : List OHLCVRecord} {sym : String}
    {d : OHLCVData} {data : List OHLCVData} (h : d ∈ data) :
    hasKey (save_ohlcv_data store sym data) sym d.timestamp = true := by
  induction data generalizing store with
  | nil => cases h
  | cons d₀ rest ih =>
    rw [save_cons]
    rcases List.mem_cons.mp h with rfl | hmem
    · apply hasKey_save_of_hasKey
      split
      · assumption
      · exact hasKey_iff.mpr ⟨toRecord sym d, by simp [toRecord]⟩
    · exact ih hmem

theorem save_eq_of_forall_hasKey {store : List OHLCVRecord} {sym : String}
    {data : List OHLCVData} (h : ∀ d ∈ data, hasKey store sym d.timestamp = true) :
    save_ohlcv_data store sym data = store := by
  induction data generalizing store with
  | nil => rfl
  | cons d rest ih =>
    rw [save_cons, if_pos (h d (List.mem_cons_self d rest))]
    exact ih fun d₀ hd₀ => h d₀ (List.mem_cons_of_mem d hd₀)

theorem save_idem (store : List OHLCVRecord) (sym : String) (data : List OHLCVData) :
    save_ohlcv_data (save_ohlcv_data store sym data) sym data =
      save_ohlcv_data store sym data :=
  save_eq_of_forall_hasKey fun _ hd => hasKey_save_of_mem hd

theorem mem_save {r : OHLCVRecord} {store : List OHLCVRecord} {sym : String}
    {data : List OHLCVData} (h : r ∈ save_ohlcv_data store sym data) :
    r ∈ store ∨ ∃ d ∈ data, r = toRecord sym d := by
  induction data generalizing store with
  | nil => exact Or.inl h
  | cons d rest ih =>
    rw [save_cons] at h
    rcases ih h with hst | ⟨d₀, hd₀, rfl⟩
    · by_cases hk : hasKey store sym d.timestamp = true
      · rw [if_pos hk] at hst
        exact Or.inl hst
      · rw [if_neg hk] at hst
        rcases List.mem_append.mp hst with hst | hst
        · exact Or.inl hst
        · exact Or.inr ⟨d, List.mem_cons_self d rest, (List.mem_singleton.mp hst)⟩
    · exact Or.inr ⟨d₀, List.mem_cons_of_mem d hd₀, rfl⟩

theorem noDupKeys_save {store : List OHLCVRecord} (sym : String)
    (data : List OHLCVData) (h : noDupKeys store) :
    noDupKeys (save_ohlcv_data store sym data) := by
  induction data generalizing store with
  | nil => exact h
  | cons d rest ih =>
    rw [save_cons]
    apply ih
    split
    · exact h
    · rename_i hk
      refine List.pairwise_append.mpr ⟨h, List.pairwise_singleton _ _, ?_⟩
      intro a ha b hb
      rcases List.mem_singleton.mp hb with rfl
      intro ⟨hsym, hts⟩
      exact hk (hasKey_iff.mpr ⟨a, ha, by simpa [toRecord] using ⟨hsym, hts⟩⟩)

theorem parseEntry_valid {entry : RawEntry} {d : OHLCVData}
    (h : parseEntry entry = some d) : d.valid = true := by
  rcases entry with ⟨t, o, hi, l, c, v⟩
  cases t <;> cases o <;> cases hi <;> cases l <;> cases c <;> cases v <;>
    simp only [parseEntry] at h <;> try cases h
  split at h
  · cases h
    assumption
  · cases h

theorem mem_parse_valid {d : OHLCVData} {ts : List RawEntry}
    (h : d ∈ parse_time_series ts) : d.valid = true := by
  rw [parse_time_series, List.mem_insertionSort, List.mem_filterMap] at h
  rcases h with ⟨entry, _, hp⟩
  exact parseEntry_valid hp

theorem parse_sorted (ts : List RawEntry) : (parse_time_series ts).Sorted byTs :=
  List.sorted_insertionSort byTs _

theorem fetch_daily_ok {resp : ProviderResponse} {data : List OHLCVData}
    (h : fetch_daily resp = .ok data) : data = parse_time_series resp.timeSeries := by
  unfold fetch_daily at h
  split at h
  · cases h
  split at h
  · cases h
  split at h
  · cases h
  split at h
  · cases h
  · exact (Except.ok.inj h).symm

theorem mem_get_cached_data {r : OHLCVRecord} {store : List OHLCVRecord}
    {sym : String} {s e : Nat} :
    r ∈ get_cached_data store sym s e ↔
      r ∈ store ∧ r.symbol = sym ∧ s ≤ r.timestamp ∧ r.timestamp ≤ e := by
  simp [get_cached_data, List.mem_insertionSort, List.mem_filter, and_assoc]

theorem get_cached_sorted (store : List OHLCVRecord) (sym : String) (s e : Nat) :
    (get_cached_data store sym s e).Sorted byTsRec :=
  List.sorted_insertionSort byTsRec _

theorem filter_map_get_cached (store : List OHLCVRecord) (sym : String) (s e : Nat) :
    ((get_cached_data store sym s e).map toData).filter
        (fun d => decide (s ≤ d.timestamp) && decide (d.timestamp ≤ e)) =
      (get_cached_data store sym s e).map toData := by
  apply List.filter_eq_self.mpr
  intro d hd
  rcases List.mem_map.mp hd with ⟨r, hr, rfl⟩
  rcases mem_get_cached_data.mp hr with ⟨_, _, h1, h2⟩
  simp [toData, h1, h2]

theorem get_cached_of_lt {store : List OHLCVRecord} {sym : String} {s e : Nat}
    (h : e < s) : get_cached_data store sym s e = [] := by
  have : store.filter (fun r =>
      r.symbol == sym && decide (s ≤ r.timestamp) && decide (r.timestamp ≤ e)) = [] := by
    apply List.filter_eq_nil_iff.mpr
    intro r _
    simp only [Bool.and_eq_true, decide_eq_true_eq, not_and, and_imp]
    intro _ h1 h2
    exact absurd (Nat.le_trans h1 h2) (Nat.not_le.mpr h)
  rw [get_cached_data, this]
  rfl

theorem cache_miss_spec (store : List OHLCVRecord) (resp : ProviderResponse)
    (sym : String) (sd ed : Option Nat) (now : Nat) (data : List OHLCVData)
    (hcache : get_cached_data store sym (sd.getD datetime2000) (ed.getD now) = [])
    (hfetch : fetch_daily resp = .ok data) (hne : data ≠ []) :
    (get_ohlcv_data store resp sym sd ed now).providerCalls = 1 ∧
    (get_ohlcv_data store resp sym sd ed now).store = save_ohlcv_data store sym data ∧
    (get_ohlcv_data store resp sym sd ed now).result =
      .ok (data.filter fun d =>
        decide (sd.getD datetime2000 ≤ d.timestamp) &&
          decide (d.timestamp ≤ ed.getD now)) ∧
    (data.filter fun d =>
        decide (sd.getD datetime2000 ≤ d.timestamp) &&
          decide (d.timestamp ≤ ed.getD now)).Sorted byTs := by
  have hempty : data.isEmpty = false := by
    simp [List.isEmpty_iff, hne]
  have hl : 0 < data.length := List.length_pos.mpr hne
  refine ⟨?_, ?_, ?_, ?_⟩
  · simp only [get_ohlcv_data, hcache, List.length_nil, Nat.lt_irrefl, gt_iff_lt,
      if_false, hfetch, hempty, Bool.false_eq_true, if_pos hl]
  · simp only [get_ohlcv_data, hcache, List.length_nil, Nat.lt_irrefl, gt_iff_lt,
      if_false, hfetch, hempty, Bool.false_eq_true, if_pos hl]
  · simp only [get_ohlcv_data, hcache, List.length_nil, Nat.lt_irrefl, gt_iff_lt,
      if_false, hfetch, hempty, Bool.false_eq_true, if_pos hl]
  · have : data.Sorted byTs := by
      rw [fetch_daily_ok hfetch]
      exact parse_sorted _
    exact this.filter _

/-! ### Claim theorems -/

/-- C1: for every symbol and valid date range, if the store's range query
returns at least one record, `get_ohlcv_data` returns exactly those cached
records (converted to dataframe rows), filtered to
`start <= timestamp <= end`, ascending by timestamp, leaves the store
unchanged, and makes zero provider calls. -/
theorem get_series_cache_hit (store : List OHLCVRecord) (resp : ProviderResponse)
    (sym : String) (sd ed : Option Nat) (now : Nat)
    (h : get_cached_data store sym (sd.getD datetime2000) (ed.getD now) ≠ []) :
    (get_ohlcv_data store resp sym sd ed now).providerCalls = 0 ∧
    (get_ohlcv_data store resp sym sd ed now).store = store ∧
    (get_ohlcv_data store resp sym sd ed now).result =
      .ok ((get_cached_data store sym (sd.getD datetime2000) (ed.getD now)).map toData) ∧
    (∀ d ∈ (get_cached_data store sym (sd.getD datetime2000) (ed.getD now)).map toData,
      sd.getD datetime2000 ≤ d.timestamp ∧ d.timestamp ≤ ed.getD now) ∧
    ((get_cached_data store sym (sd.getD datetime2000) (ed.getD now)).map toData).Sorted byTs := by
  have hl : 0 < (get_cached_data store sym (sd.getD datetime2000) (ed.getD now)).length :=
    List.length_pos.mpr h
  have hml : 0 <
      ((get_cached_data store sym (sd.getD datetime2000) (ed.getD now)).map toData).length := by
    simpa using hl
  refine ⟨?_, ?_, ?_, ?_, ?_⟩
  · simp only [get_ohlcv_data, if_pos hl, if_pos hml]
  · simp only [get_ohlcv_data, if_pos hl, if_pos hml]
  · simp only [get_ohlcv_data, if_pos hl, if_pos hml]
    rw [filter_map_get_cached]
  · intro d hd
    rcases List.mem_map.mp hd with ⟨r, hr, rfl⟩
    rcases mem_get_cached_data.mp hr with ⟨_, _, h1, h2⟩
    exact ⟨h1, h2⟩
  · exact (get_cached_sorted store sym _ _).map toData fun a b hab => hab

/-- C1 witness: a one-record store hit by a matching range query. -/
theorem get_series_cache_hit_witness :
    (get_cached_data [⟨"AAPL", 20240102, 10, 12, 9, 11, 100⟩] "AAPL"
        20240101 20240105 ≠ []) ∧
    (get_ohlcv_data [⟨"AAPL", 20240102, 10, 12, 9, 11, 100⟩] ⟨none, none, none, []⟩
        "AAPL" (some 20240101) (some 20240105) 20240110).providerCalls = 0 :=
  ⟨by decide,
   (get_series_cache_hit [⟨"AAPL", 20240102, 10, 12, 9, 11, 100⟩] ⟨none, none, none, []⟩
      "AAPL" (some 20240101) (some 20240105) 20240110 (by decide)).1⟩

/-- C2: on a cache miss (range query returns zero records), when the
provider fetch succeeds with a non-empty record list, `get_ohlcv_data`
issues exactly one provider call, upserts all fetched records into the
store, and returns the freshly fetched set filtered to `[start, end]`
(derived from the fetched list, not from a second store query), ascending
by timestamp. -/
theorem get_series_cache_miss (store : List OHLCVRecord) (resp : ProviderResponse)
    (sym : String) (sd ed : Option Nat) (now : Nat) (data : List OHLCVData)
    (hcache : get_cached_data store sym (sd.getD datetime2000) (ed.getD now) = [])
    (hfetch : fetch_daily resp = .ok data) (hne : data ≠ []) :
    (get_ohlcv_data store resp sym sd ed now).providerCalls = 1 ∧
    (get_ohlcv_data store resp sym sd ed now).store = save_ohlcv_data store sym data ∧
    (get_ohlcv_data store resp sym sd ed now).result =
      .ok (data.filter fun d =>
        decide (sd.getD datetime2000 ≤ d.timestamp) &&
          decide (d.timestamp ≤ ed.getD now)) ∧
    (data.filter fun d =>
        decide (sd.getD datetime2000 ≤ d.timestamp) &&
          decide (d.timestamp ≤ ed.getD now)).Sorted byTs :=
  cache_miss_spec store resp sym sd ed now data hcache hfetch hne

/-- C2 witness: an empty store and a successful two-record fetch. -/
theorem get_series_cache_miss_witness :
    (get_cached_data [] "AAPL" 20240101 20240105 = []) ∧
    (fetch_daily ⟨none, none, none,
        [⟨some 20240102, some 10, some 12, some 9, some 11, some 100⟩]⟩ =
      .ok [⟨20240102, 10, 12, 9, 11, 100⟩]) ∧
    (get_ohlcv_data [] ⟨none, none, none,
        [⟨some 20240102, some 10, some 12, some 9, some 11, some 100⟩]⟩
      "AAPL" (some 20240101) (some 20240105) 20240110).providerCalls = 1 :=
  ⟨by decide, by rfl,
   (get_series_cache_miss [] ⟨none, none, none,
        [⟨some 20240102, some 10, some 12, some 9, some 11, some 100⟩]⟩
      "AAPL" (some 20240101) (some 20240105) 20240110
      [⟨20240102, 10, 12, 9, 11, 100⟩] (by decide) (by rfl) (by decide)).1⟩

/-- C3: a record whose OHLC values violate `low <= open, close <= high`
(in particular one with `high < low`) is excluded from the parsed sequence
the provider client returns, and is never written to the store by a
subsequent save of that sequence. -/
theorem invalid_record_excluded (ts : List RawEntry) (store : List OHLCVRecord)
    (sym : String) (d : OHLCVData)
    (hinv : ¬(d.low ≤ d.«open» ∧ d.«open» ≤ d.high ∧
      d.low ≤ d.close ∧ d.close ≤ d.high)) :
    d ∉ parse_time_series ts ∧
    (toRecord sym d ∉ store →
      toRecord sym d ∉ save_ohlcv_data store sym (parse_time_series ts)) := by
  have hval : d.valid ≠ true := by
    intro h1
    simp only [OHLCVData.valid, Bool.and_eq_true, decide_eq_true_eq] at h1
    obtain ⟨⟨⟨⟨⟨ha, hb⟩, hc⟩, hd⟩, _⟩, _⟩ := h1
    exact hinv ⟨ha, hb, hc, hd⟩
  have hnotmem : d ∉ parse_time_series ts := fun hmem => hval (mem_parse_valid hmem)
  refine ⟨hnotmem, fun hst hmem => ?_⟩
  rcases mem_save hmem with hmem | ⟨d₀, hd₀, heq⟩
  · exact hst hmem
  · have : d₀ = d := by
      rcases d with ⟨t, o, hi, l, c, v⟩
      rcases d₀ with ⟨t₀, o₀, hi₀, l₀, c₀, v₀⟩
      simpa [toRecord, and_assoc] using heq.symm
    exact hnotmem (this ▸ hd₀)

/-- C3 witness: a record with `high = 8 < 9 = low` is excluded from parsing
and from the store, even when its raw entry is present in the payload. -/
theorem invalid_record_excluded_witness :
    (¬((9 : Int) ≤ 10 ∧ (10 : Int) ≤ 8 ∧ (9 : Int) ≤ 11 ∧ (11 : Int) ≤ 8)) ∧
    (⟨20240102, 10, 8, 9, 11, 100⟩ : OHLCVData) ∉
      parse_time_series [⟨some 20240102, some 10, some 8, some 9, some 11, some 100⟩] :=
  ⟨by decide,
   (invalid_record_excluded
      [⟨some 20240102, some 10, some 8, some 9, some 11, some 100⟩] [] "AAPL"
      ⟨20240102, 10, 8, 9, 11, 100⟩ (by decide)).1⟩

/-- C4 counterexample: with an empty store, a well-formed one-record provider
response, and `start = 2024-01-05 > end = 2024-01-01`, the call does not fail
with any error: it queries the store, invokes the provider once, and returns
an empty success — no `InvalidRange` rejection exists in the code. -/
theorem invalid_range_not_rejected :
    (get_ohlcv_data [] ⟨none, none, none,
        [⟨some 20240102, some 10, some 12, some 9, some 11, some 100⟩]⟩
      "AAPL" (some 20240105) (some 20240101) 20241231).providerCalls = 1 ∧
    (get_ohlcv_data [] ⟨none, none, none,
        [⟨some 20240102, some 10, some 12, some 9, some 11, some 100⟩]⟩
      "AAPL" (some 20240105) (some 20240101) 20241231).result = .ok [] :=
  ⟨rfl, rfl⟩

/-- C4 amended: a range with `start > end` is not rejected; the store range
query matches nothing, so the call proceeds to the provider (one call), and
on a successful non-empty fetch it persists the fetched records and returns
an empty success, since no timestamp can satisfy the impossible range. -/
theorem invalid_range_proceeds (store : List OHLCVRecord) (resp : ProviderResponse)
    (sym : String) (sd ed : Option Nat) (now : Nat) (data : List OHLCVData)
    (hrange : ed.getD now < sd.getD datetime2000)
    (hfetch : fetch_daily resp = .ok data) (hne : data ≠ []) :
    (get_ohlcv_data store resp sym sd ed now).providerCalls = 1 ∧
    (get_ohlcv_data store resp sym sd ed now).store = save_ohlcv_data store sym data ∧
    (get_ohlcv_data store resp sym sd ed now).result = .ok [] := by
  have hcache : get_cached_data store sym (sd.getD datetime2000) (ed.getD now) = [] :=
    get_cached_of_lt hrange
  have hmain := cache_miss_spec store resp sym sd ed now data hcache hfetch hne
  refine ⟨hmain.1, hmain.2.1, ?_⟩
  rw [hmain.2.2.1]
  have : (data.filter fun d =>
      decide (sd.getD datetime2000 ≤ d.timestamp) &&
        decide (d.timestamp ≤ ed.getD now)) = [] := by
    apply List.filter_eq_nil_iff.mpr
    intro d _
    simp only [Bool.and_eq_true, decide_eq_true_eq, not_and]
    intro h1 h2
    exact absurd (Nat.le_trans h1 h2) (Nat.not_le.mpr hrange)
  rw [this]

/-- C4 amended witness: the concrete inverted range of the counterexample
satisfies the amended statement. -/
theorem invalid_range_proceeds_witness :
    ((20240101 : Nat) < 20240105) ∧
    (get_ohlcv_data [] ⟨none, none, none,
        [⟨some 20240102, some 10, some 12, some 9, some 11, some 100⟩]⟩
      "AAPL" (some 20240105) (some 20240101) 20241231).store =
      save_ohlcv_data [] "AAPL" [⟨20240102, 10, 12, 9, 11, 100⟩] :=
  ⟨by decide,
   (invalid_range_proceeds [] ⟨none, none, none,
        [⟨some 20240102, some 10, some 12, some 9, some 11, some 100⟩]⟩
      "AAPL" (some 20240105) (some 20240101) 20241231
      [⟨20240102, 10, 12, 9, 11, 100⟩] (by decide) (by rfl) (by decide)).2.1⟩

/-- C5: on the cache-miss path, when the fetch succeeds but the parsed
record list is empty after validation, `get_ohlcv_data` fails with the
no-data-for-symbol error and leaves the store unchanged — it never returns
an empty sequence as a success on this path. -/
theorem empty_fetch_errors (store : List OHLCVRecord) (resp : ProviderResponse)
    (sym : String) (sd ed : Option Nat) (now : Nat)
    (hcache : get_cached_data store sym (sd.getD datetime2000) (ed.getD now) = [])
    (hfetch : fetch_daily resp = .ok []) :
    (get_ohlcv_data store resp sym sd ed now).result = .error .noDataForSymbol ∧
    (get_ohlcv_data store resp sym sd ed now).store = store := by
  constructor <;>
    simp only [get_ohlcv_data, hcache, List.length_nil, Nat.lt_irrefl, gt_iff_lt,
      if_false, hfetch, List.isEmpty_nil, if_true]

/-- C5 witness: a payload whose only entry fails OHLC validation parses to
an empty list, and the call errors instead of succeeding emptily. -/
theorem empty_fetch_errors_witness :
    (get_cached_data [] "AAPL" 20240101 20240105 = []) ∧
    (fetch_daily ⟨none, none, none,
        [⟨some 20240102, some 10, some 8, some 9, some 11, some 100⟩]⟩ = .ok []) ∧
    (get_ohlcv_data [] ⟨none, none, none,
        [⟨some 20240102, some 10, some 8, some 9, some 11, some 100⟩]⟩
      "AAPL" (some 20240101) (some 20240105) 20240110).result =
      .error .noDataForSymbol :=
  ⟨by decide, by rfl,
   (empty_fetch_errors [] ⟨none, none, none,
        [⟨some 20240102, some 10, some 8, some 9, some 11, some 100⟩]⟩
      "AAPL" (some 20240101) (some 20240105) 20240110 (by decide) (by rfl)).1⟩

/-- C6: refreshing a symbol twice with an unchanged upstream response is
idempotent — the second refresh reports the same count and leaves the store
exactly as the first left it — and the store has no duplicate
`(symbol, timestamp)` keys after either call, because the save inserts a
record only when no record with its key exists. -/
theorem refresh_idempotent (store : List OHLCVRecord) (resp : ProviderResponse)
    (sym : String) (data : List OHLCVData)
    (hdup : noDupKeys store) (hfetch : fetch_daily resp = .ok data)
    (hne : data ≠ []) :
    refresh store resp sym = .ok (data.length, save_ohlcv_data store sym data) ∧
    refresh (save_ohlcv_data store sym data) resp sym =
      .ok (data.length, save_ohlcv_data store sym data) ∧
    noDupKeys (save_ohlcv_data store sym data) := by
  have hempty : data.isEmpty = false := by
    simp [List.isEmpty_iff, hne]
  refine ⟨?_, ?_, noDupKeys_save sym data hdup⟩
  · simp only [refresh, hfetch, hempty, Bool.false_eq_true, if_false]
  · simp only [refresh, hfetch, hempty, Bool.false_eq_true, if_false, save_idem]

/-- C6 witness: two refreshes over an initially empty store with a fixed
two-record response. -/
theorem refresh_idempotent_witness :
    noDupKeys ([] : List OHLCVRecord) ∧
    (fetch_daily ⟨none, none, none,
        [⟨some 20240102, some 10, some 12, some 9, some 11, some 100⟩,
         ⟨some 20240103, some 11, some 13, some 10, some 12, some 100⟩]⟩ =
      .ok [⟨20240102, 10, 12, 9, 11, 100⟩, ⟨20240103, 11, 13, 10, 12, 100⟩]) ∧
    refresh (save_ohlcv_data [] "AAPL"
        [⟨20240102, 10, 12, 9, 11, 100⟩, ⟨20240103, 11, 13, 10, 12, 100⟩])
      ⟨none, none, none,
        [⟨some 20240102, some 10, some 12, some 9, some 11, some 100⟩,
         ⟨some 20240103, some 11, some 13, some 10, some 12, some 100⟩]⟩ "AAPL" =
      .ok (2, save_ohlcv_data [] "AAPL"
        [⟨20240102, 10, 12, 9, 11, 100⟩, ⟨20240103, 11, 13, 10, 12, 100⟩]) :=
  ⟨List.Pairwise.nil, by rfl,
   (refresh_idempotent [] ⟨none, none, none,
        [⟨some 20240102, some 10, some 12, some 9, some 11, some 100⟩,
         ⟨some 20240103, some 11, some 13, some 10, some 12, some 100⟩]⟩
      "AAPL" [⟨20240102, 10, 12, 9, 11, 100⟩, ⟨20240103, 11, 13, 10, 12, 100⟩]
      List.Pairwise.nil (by rfl) (by decide)).2.1⟩

/-- C7: every successful fetch returns its parsed records sorted ascending
by timestamp, and an individually malformed time-series entry (missing or
unparseable field) is skipped: removing it from the payload does not change
the parse result, so it never fails the whole fetch. -/
theorem fetch_sorted_skips_malformed (resp : ProviderResponse)
    (data : List OHLCVData) (entry : RawEntry) (ts₁ ts₂ : List RawEntry)
    (hfetch : fetch_daily resp = .ok data)
    (hbad : parseEntry entry = none) :
    data.Sorted byTs ∧
    parse_time_series (ts₁ ++ entry :: ts₂) = parse_time_series (ts₁ ++ ts₂) := by
  constructor
  · rw [fetch_daily_ok hfetch]
    exact parse_sorted _
  · simp only [parse_time_series, List.filterMap_append, List.filterMap_cons, hbad]

/-- C7 witness: a payload whose middle entry has an unparseable timestamp
parses as if that entry were absent, and a successful fetch of an
out-of-order payload is sorted. -/
theorem fetch_sorted_skips_malformed_witness :
    (fetch_daily ⟨none, none, none,
        [⟨some 20240103, some 11, some 13, some 10, some 12, some 100⟩,
         ⟨some 20240102, some 10, some 12, some 9, some 11, some 100⟩]⟩ =
      .ok [⟨20240102, 10, 12, 9, 11, 100⟩, ⟨20240103, 11, 13, 10, 12, 100⟩]) ∧
    (parseEntry ⟨none, some 10, some 12, some 9, some 11, some 100⟩ = none) ∧
    parse_time_series
        ([⟨some 20240103, some 11, some 13, some 10, some 12, some 100⟩] ++
          ⟨none, some 10, some 12, some 9, some 11, some 100⟩ ::
            [⟨some 20240102, some 10, some 12, some 9, some 11, some 100⟩]) =
      parse_time_series
        ([⟨some 20240103, some 11, some 13, some 10, some 12, some 100⟩] ++
          [⟨some 20240102, some 10, some 12, some 9, some 11, some 100⟩]) :=
  ⟨by rfl, by rfl,
   (fetch_sorted_skips_malformed ⟨none, none, none,
        [⟨some 20240103, some 11, some 13, some 10, some 12, some 100⟩,
         ⟨some 20240102, some 10, some 12, some 9, some 11, some 100⟩]⟩
      [⟨20240102, 10, 12, 9, 11, 100⟩, ⟨20240103, 11, 13, 10, 12, 100⟩]
      ⟨none, some 10, some 12, some 9, some 11, some 100⟩
      [⟨some 20240103, some 11, some 13, some 10, some 12, some 100⟩]
      [⟨some 20240102, some 10, some 12, some 9, some 11, some 100⟩]
      (by rfl) (by rfl)).2⟩

/-- C8: on a cache miss, a provider response carrying a rate-limit
indicator (a `"Note"` key, no `"Error Message"`) makes `get_ohlcv_data`
fail with the distinct rate-limited error, propagated unchanged, and the
store is untouched — nothing is written before the failure. -/
theorem rate_limited_propagates (store : List OHLCVRecord) (resp : ProviderResponse)
    (sym : String) (sd ed : Option Nat) (now : Nat)
    (hcache : get_cached_data store sym (sd.getD datetime2000) (ed.getD now) = [])
    (herr : resp.errorMessage = none) (hnote : resp.note.isSome = true) :
    (get_ohlcv_data store resp sym sd ed now).result = .error .rateLimited ∧
    (get_ohlcv_data store resp sym sd ed now).store = store := by
  have hfetch : fetch_daily resp = .error .rateLimited := by
    simp only [fetch_daily, herr, Option.isSome_none, Bool.false_eq_true, if_false,
      hnote, if_true]
  constructor <;>
    simp only [get_ohlcv_data, hcache, List.length_nil, Nat.lt_irrefl, gt_iff_lt,
      if_false, hfetch]

/-- C8 witness: a response containing only a `"Note"` key, against an empty
store. -/
theorem rate_limited_propagates_witness :
    (get_cached_data [] "MSFT" 20240101 20240105 = []) ∧
    ((⟨none, some "API rate limit exceeded", none, []⟩ : ProviderResponse).note.isSome
      = true) ∧
    (get_ohlcv_data [] ⟨none, some "API rate limit exceeded", none, []⟩
      "MSFT" (some 20240101) (some 20240105) 20240110).store = [] :=
  ⟨by decide, by rfl,
   (rate_limited_propagates [] ⟨none, some "API rate limit exceeded", none, []⟩
      "MSFT" (some 20240101) (some 20240105) 20240110
      (by decide) (by rfl) (by rfl)).2⟩

/-- C9 counterexample: with a store holding an `"AAPL"` row in range, the
same query issued as `"aapl"` misses the cache and goes to the provider
while `"AAPL"` hits it — two requests differing only in symbol case do not
address the same stored series, so no case-normalization is applied at
entry. -/
theorem symbol_not_normalized :
    (get_ohlcv_data [⟨"AAPL", 20240102, 10, 12, 9, 11, 100⟩] ⟨none, none, none, []⟩
      "aapl" (some 20240101) (some 20240105) 20240110).providerCalls = 1 ∧
    (get_ohlcv_data [⟨"AAPL", 20240102, 10, 12, 9, 11, 100⟩] ⟨none, none, none, []⟩
      "AAPL" (some 20240101) (some 20240105) 20240110).providerCalls = 0 :=
  ⟨rfl, rfl⟩

/-- C9 amended: the symbol is used verbatim (identity normalization) and
uniformly in both paths — every row the write path adds carries the symbol
exactly as given, the read path matches it exactly — so two requests whose
symbols differ in any way (including only in case) address disjoint stored
series: rows written under one symbol are invisible to range queries for
the other. -/
theorem symbol_verbatim (store : List OHLCVRecord) (sym sym₂ : String)
    (data : List OHLCVData) (s e : Nat) (hne : sym ≠ sym₂) :
    (∀ r ∈ get_cached_data store sym s e, r.symbol = sym) ∧
    (∀ r ∈ save_ohlcv_data store sym data, r ∈ store ∨ r.symbol = sym) ∧
    (∀ r, r ∈ get_cached_data (save_ohlcv_data store sym data) sym₂ s e ↔
      r ∈ get_cached_data store sym₂ s e) := by
  refine ⟨?_, ?_, ?_⟩
  · intro r hr
    exact (mem_get_cached_data.mp hr).2.1
  · intro r hr
    rcases mem_save hr with hmem | ⟨d, _, rfl⟩
    · exact Or.inl hmem
    · exact Or.inr rfl
  · intro r
    rw [mem_get_cached_data, mem_get_cached_data]
    constructor
    · rintro ⟨hmem, hsym, hb⟩
      rcases mem_save hmem with hmem | ⟨d, _, rfl⟩
      · exact ⟨hmem, hsym, hb⟩
      · exact absurd hsym hne
    · rintro ⟨hmem, hsym, hb⟩
      exact ⟨mem_save_of_mem sym data hmem, hsym, hb⟩

/-- C9 amended witness: rows written under `"AAPL"` are invisible to a
range query for `"aapl"`. -/
theorem symbol_verbatim_witness :
    ("AAPL" : String) ≠ "aapl" ∧
    (∀ r, r ∈ get_cached_data
        (save_ohlcv_data [] "AAPL" [⟨20240102, 10, 12, 9, 11, 100⟩])
        "aapl" 20240101 20240105 ↔
      r ∈ get_cached_data [] "aapl" 20240101 20240105) :=
  ⟨by decide,
   (symbol_verbatim [] "AAPL" "aapl" [⟨20240102, 10, 12, 9, 11, 100⟩]
      20240101 20240105 (by decide)).2.2⟩

/-- C10: on a cache miss, when the provider returns a non-empty record set
whose timestamps all fall outside `[start, end]`, `get_ohlcv_data` returns
an empty sequence as a success (no error) while still persisting all
fetched records to the store. -/
theorem out_of_range_empty_success (store : List OHLCVRecord)
    (resp : ProviderResponse) (sym : String) (sd ed : Option Nat) (now : Nat)
    (data : List OHLCVData)
    (hcache : get_cached_data store sym (sd.getD datetime2000) (ed.getD now) = [])
    (hfetch : fetch_daily resp = .ok data) (hne : data ≠ [])
    (hout : ∀ d ∈ data,
      ¬(sd.getD datetime2000 ≤ d.timestamp ∧ d.timestamp ≤ ed.getD now)) :
    (get_ohlcv_data store resp sym sd ed now).result = .ok [] ∧
    (get_ohlcv_data store resp sym sd ed now).store = save_ohlcv_data store sym data := by
  have hmain := cache_miss_spec store resp sym sd ed now data hcache hfetch hne
  refine ⟨?_, hmain.2.1⟩
  rw [hmain.2.2.1]
  have : (data.filter fun d =>
      decide (sd.getD datetime2000 ≤ d.timestamp) &&
        decide (d.timestamp ≤ ed.getD now)) = [] := by
    apply List.filter_eq_nil_iff.mpr
    intro d hd
    simp only [Bool.and_eq_true, decide_eq_true_eq, not_and]
    intro h1 h2
    exact hout d hd ⟨h1, h2⟩
  rw [this]

/-- C10 witness: a 2024 record set fetched for a 2025 range yields an empty
success and a populated store. -/
theorem out_of_range_empty_success_witness :
    (get_cached_data [] "AAPL" 20250101 20250105 = []) ∧
    (get_ohlcv_data [] ⟨none, none, none,
        [⟨some 20240102, some 10, some 12, some 9, some 11, some 100⟩]⟩
      "AAPL" (some 20250101) (some 20250105) 20251231).result = .ok [] :=
  ⟨by decide,
   (out_of_range_empty_success [] ⟨none, none, none,
        [⟨some 20240102, some 10, some 12, some 9, some 11, some 100⟩]⟩
      "AAPL" (some 20250101) (some 20250105) 20251231
      [⟨20240102, 10, 12, 9, 11, 100⟩] (by decide) (by rfl) (by decide)
      (by decide)).1⟩

end FightClub
